import Mathlib

/-!
Shallow embedding of the ink! ERC-20 contract in `src/lib.rs` (module `erc20`).

Modelling choices:
* `AccountId` (an opaque 32-byte identifier in ink!) is modelled as `Nat`;
  the code only ever compares identifiers for equality.
* `Balance` is `u128` in ink!; we model values as `Nat`.  The only
  arithmetic the code performs are `from_balance - value` (guarded by
  `from_balance >= value`, so `u128` subtraction coincides with `Nat`
  subtraction) and the unchecked credit `to_balance + value`
  (src/lib.rs line 103), which as a `u128` addition wraps modulo `2 ^ 128`;
  we write that wrap explicitly as `% U128MOD`.
* `ink_storage::Mapping` is modelled as an association list with
  overwrite-on-insert (`mapInsert`) and `get ... unwrap_or_default`
  reads (`mapGet ... |>.getD 0`).
* The implicit `self.env().caller()` is passed as an explicit `caller`
  argument, and `self.env().emit_event(...)` is modelled by returning the
  list of events the call emits.  Every mutating operation returns the
  triple (result, post-state, emitted events).
-/

namespace Erc20Spec

abbrev AccountId : Type := Nat

abbrev Balance : Type := Nat

/-- `2 ^ 128`: the modulus of the `u128` `Balance` type. -/
def U128MOD : Nat := 2 ^ 128

/-- Error enum of src/lib.rs lines 24-28. -/
inductive Error : Type where
  | InsufficientBalance : Error
  | InsufficientAllowance : Error
deriving DecidableEq, Repr

/-- The two event types of src/lib.rs lines 30-46: `Transfer` (with
optional `from`/`to_`) and `Approve`. -/
inductive Event : Type where
  | transfer (from_ : Option AccountId) (to_ : Option AccountId) (value : Balance) : Event
  | approve (owner : AccountId) (spender : AccountId) (value : Balance) : Event
deriving DecidableEq, Repr

instance {ε α : Type} [DecidableEq ε] [DecidableEq α] :
    DecidableEq (Except ε α) := fun a b =>
  match a, b with
  | Except.error e1, Except.error e2 =>
      if h : e1 = e2 then isTrue (by rw [h]) else
        isFalse (by intro hc; exact h (by injection hc))
  | Except.error _, Except.ok _ => isFalse (by intro hc; exact Except.noConfusion hc)
  | Except.ok _, Except.error _ => isFalse (by intro hc; exact Except.noConfusion hc)
  | Except.ok v1, Except.ok v2 =>
      if h : v1 = v2 then isTrue (by rw [h]) else
        isFalse (by intro hc; exact h (by injection hc))

/-- Association-list model of `ink_storage::Mapping`: `insert` overwrites
the entry for an existing key and appends otherwise. -/
def mapInsert {α β : Type} [DecidableEq α] (k : α) (v : β) :
    List (α × β) → List (α × β)
  | [] => [(k, v)]
  | (k1, v1) :: rest =>
      if k = k1 then (k, v) :: rest else (k1, v1) :: mapInsert k v rest

/-- Association-list model of `Mapping::get`: `none` when the key is absent. -/
def mapGet {α β : Type} [DecidableEq α] (k : α) :
    List (α × β) → Option β
  | [] => none
  | (k1, v1) :: rest => if k = k1 then some v1 else mapGet k rest

theorem mapGet_mapInsert {α β : Type} [DecidableEq α]
    (a k : α) (v : β) (l : List (α × β)) :
    mapGet a (mapInsert k v l) = if a = k then some v else mapGet a l := by
  induction l with
  | nil =>
      by_cases h : a = k <;> simp [mapInsert, mapGet, h]
  | cons hd tl ih =>
      obtain ⟨k1, v1⟩ := hd
      by_cases hk : k = k1
      · subst hk
        by_cases h : a = k <;> simp [mapInsert, mapGet, h]
      · by_cases h : a = k1
        · subst h
          simp [mapInsert, mapGet, hk, Ne.symm hk]
        · simp [mapInsert, mapGet, hk, h, ih]

/-- Contract storage, src/lib.rs lines 12-19. -/
structure Erc20 : Type where
  total_supply : Balance
  balances : List (AccountId × Balance)
  allowances : List ((AccountId × AccountId) × Balance)
deriving DecidableEq, Repr

/-- `balance_of_impl` (src/lib.rs lines 113-115):
`self.balances.get(owner).unwrap_or_default()`. -/
def balance_of_impl (s : Erc20) (owner : AccountId) : Balance :=
  (mapGet owner s.balances).getD 0

/-- `balance_of` (src/lib.rs lines 81-83). -/
def balance_of (s : Erc20) (owner : AccountId) : Balance :=
  (mapGet owner s.balances).getD 0

/-- `allowance_impl` (src/lib.rs lines 135-137). -/
def allowance_impl (s : Erc20) (ownder spender : AccountId) : Balance :=
  (mapGet (ownder, spender) s.allowances).getD 0

/-- `allowance` (src/lib.rs lines 130-132). -/
def allowance (s : Erc20) (owner spender : AccountId) : Balance :=
  allowance_impl s owner spender

/-- `new` / `new_init` (src/lib.rs lines 54-71): inserts the caller's
balance, sets `total_supply`, and emits `Transfer { from: None, .. }`. -/
def new (caller : AccountId) (initial_supply : Balance) : Erc20 × List Event :=
  ({ total_supply := initial_supply
     balances := mapInsert caller initial_supply []
     allowances := [] },
   [Event.transfer none (some caller) initial_supply])

/-- `transfer_from_to` (src/lib.rs lines 91-110).  Reads `from_balance`,
rejects when it is below `value`, reads `to_balance`, then performs the
two inserts in source order — first `from := from_balance - value`, then
`to_ := to_balance + value` (the credit being a wrapping `u128` addition) —
and emits a `Transfer` event. -/
def transfer_from_to (s : Erc20) (from_ to_ : AccountId) (value : Balance) :
    Except Error Unit × Erc20 × List Event :=
  let from_balance := balance_of_impl s from_
  if from_balance < value then
    (Except.error Error.InsufficientBalance, s, [])
  else
    let to_balance := balance_of_impl s to_
    let s1 : Erc20 :=
      { s with balances := mapInsert from_ (from_balance - value) s.balances }
    let s2 : Erc20 :=
      { s1 with balances :=
          mapInsert to_ ((to_balance + value) % U128MOD) s1.balances }
    (Except.ok (), s2, [Event.transfer (some from_) (some to_) value])

/-- `transfer` (src/lib.rs lines 86-89): delegates to `transfer_from_to`
with `from = caller`. -/
def transfer (s : Erc20) (caller to_ : AccountId) (value : Balance) :
    Except Error Unit × Erc20 × List Event :=
  transfer_from_to s caller to_ value

/-- `approve` (src/lib.rs lines 118-127): unconditionally overwrites the
`(caller, spender)` allowance and emits an `Approve` event. -/
def approve (s : Erc20) (caller spender : AccountId) (value : Balance) :
    Except Error Unit × Erc20 × List Event :=
  (Except.ok (),
   { s with allowances := mapInsert (caller, spender) value s.allowances },
   [Event.approve caller spender value])

/-- `transfer_from` (src/lib.rs lines 140-149): reads the
`(from, caller)` allowance, rejects when it is below `value`, delegates
to `transfer_from_to` propagating its error, and on success overwrites
the allowance with `allowance - value`. -/
def transfer_from (s : Erc20) (caller from_ to_ : AccountId) (value : Balance) :
    Except Error Unit × Erc20 × List Event :=
  let allowance := (mapGet (from_, caller) s.allowances).getD 0
  if allowance < value then
    (Except.error Error.InsufficientAllowance, s, [])
  else
    let r := transfer_from_to s from_ to_ value
    match r.1 with
    | Except.error e => (Except.error e, r.2.1, r.2.2)
    | Except.ok _ =>
        (Except.ok (),
         { r.2.1 with allowances :=
             mapInsert (from_, caller) (allowance - value) (r.2.1).allowances },
         r.2.2)


/-! ### Characterization lemmas for the operations -/

theorem balance_of_eq_impl (s : Erc20) (a : AccountId) :
    balance_of s a = balance_of_impl s a := rfl

theorem transfer_from_to_of_lt (s : Erc20) (from_ to_ : AccountId)
    (value : Balance) (h : balance_of_impl s from_ < value) :
    transfer_from_to s from_ to_ value =
      (Except.error Error.InsufficientBalance, s, []) := by
  simp [transfer_from_to, h]

theorem transfer_from_to_of_ge (s : Erc20) (from_ to_ : AccountId)
    (value : Balance) (h : ¬ balance_of_impl s from_ < value) :
    transfer_from_to s from_ to_ value =
      (Except.ok (),
       { s with balances :=
           (mapInsert to_ ((balance_of_impl s to_ + value) % U128MOD)
             (mapInsert from_ (balance_of_impl s from_ - value) s.balances)) },
       [Event.transfer (some from_) (some to_) value]) := by
  simp [transfer_from_to, h]

theorem transfer_from_of_allowance_lt (s : Erc20) (caller from_ to_ : AccountId)
    (value : Balance) (h : (mapGet (from_, caller) s.allowances).getD 0 < value) :
    transfer_from s caller from_ to_ value =
      (Except.error Error.InsufficientAllowance, s, []) := by
  simp [transfer_from, h]

theorem transfer_from_of_balance_lt (s : Erc20) (caller from_ to_ : AccountId)
    (value : Balance) (ha : ¬ (mapGet (from_, caller) s.allowances).getD 0 < value)
    (hb : balance_of_impl s from_ < value) :
    transfer_from s caller from_ to_ value =
      (Except.error Error.InsufficientBalance, s, []) := by
  simp [transfer_from, ha, transfer_from_to_of_lt s from_ to_ value hb]

theorem transfer_from_of_ok (s : Erc20) (caller from_ to_ : AccountId)
    (value : Balance) (ha : ¬ (mapGet (from_, caller) s.allowances).getD 0 < value)
    (hb : ¬ balance_of_impl s from_ < value) :
    transfer_from s caller from_ to_ value =
      (Except.ok (),
       { total_supply := s.total_supply
         balances :=
           (mapInsert to_ ((balance_of_impl s to_ + value) % U128MOD)
             (mapInsert from_ (balance_of_impl s from_ - value) s.balances))
         allowances :=
           (mapInsert (from_, caller)
             ((mapGet (from_, caller) s.allowances).getD 0 - value) s.allowances) },
       [Event.transfer (some from_) (some to_) value]) := by
  simp [transfer_from, ha, transfer_from_to_of_ge s from_ to_ value hb]

/-- Sum of all stored balances (absent entries contribute 0). -/
def sumBalances (s : Erc20) : Nat :=
  (s.balances.map Prod.snd).sum


/-! ### Claim theorems -/

/-- C1.  The conservation invariant fails on a reachable state: starting
from `new(100)` by account 1, the self-transfer `transfer(1, 10)` made by
account 1 succeeds and leaves the sum of all stored balances at 110 while
`total_supply` is still 100 (the debit write at src/lib.rs line 102 is
overwritten by the credit write at line 103 when `from == to`). -/
theorem conservation_violated_by_self_transfer :
    (transfer (new 1 100).1 1 1 10).1 = Except.ok () ∧
    sumBalances (transfer (new 1 100).1 1 1 10).2.1 = 110 ∧
    (transfer (new 1 100).1 1 1 10).2.1.total_supply = 100 := by
  decide

/-- C2.  A self-transfer is not a no-op: with `balance_of 1 = 100 ≥ 10`,
`transfer_from_to 1 1 10` succeeds but leaves `balance_of 1 = 110`
(incremented by the value), because the credit insert overwrites the debit
insert on the shared key. -/
theorem self_transfer_inflates_balance :
    balance_of (new 1 100).1 1 = 100 ∧
    (transfer_from_to (new 1 100).1 1 1 10).1 = Except.ok () ∧
    balance_of (transfer_from_to (new 1 100).1 1 1 10).2.1 1 = 110 := by
  decide

/-- C3.  `transfer_from_to` returns `Err(InsufficientBalance)` exactly when
`balance_of from < value`, and in that case the whole state (balances and
allowances) is unchanged and no event is emitted. -/
theorem insufficient_balance_iff_and_atomic (s : Erc20) (from_ to_ : AccountId)
    (value : Balance) :
    ((transfer_from_to s from_ to_ value).1 =
        Except.error Error.InsufficientBalance ↔ balance_of s from_ < value) ∧
    (balance_of s from_ < value →
      transfer_from_to s from_ to_ value =
        (Except.error Error.InsufficientBalance, s, [])) := by
  rw [balance_of_eq_impl]
  by_cases h : balance_of_impl s from_ < value
  · rw [transfer_from_to_of_lt s from_ to_ value h]
    simp [h]
  · rw [transfer_from_to_of_ge s from_ to_ value h]
    simp [h]

theorem insufficient_balance_iff_and_atomic_witness :
    balance_of (new 1 100).1 1 < 150 ∧
    transfer_from_to (new 1 100).1 1 2 150 =
      (Except.error Error.InsufficientBalance, (new 1 100).1, []) :=
  ⟨by decide,
   (insufficient_balance_iff_and_atomic (new 1 100).1 1 2 150).2 (by decide)⟩

/-- C6.  `approve` always succeeds, overwrites (is not additive): after
`approve s v1` then `approve s v2` the allowance is `v2`, and each call
emits one `Approve {owner, spender, value}` event. -/
theorem approve_overwrites_and_succeeds (s : Erc20) (caller spender : AccountId)
    (v1 v2 : Balance) :
    (approve s caller spender v1).1 = Except.ok () ∧
    (approve (approve s caller spender v1).2.1 caller spender v2).1 =
      Except.ok () ∧
    allowance (approve s caller spender v1).2.1 caller spender = v1 ∧
    allowance (approve (approve s caller spender v1).2.1 caller spender v2).2.1
      caller spender = v2 ∧
    (approve s caller spender v1).2.2 = [Event.approve caller spender v1] ∧
    (approve (approve s caller spender v1).2.1 caller spender v2).2.2 =
      [Event.approve caller spender v2] := by
  simp [approve, allowance, allowance_impl, mapGet_mapInsert]

/-- C4.  In `transfer_from` the allowance check comes first: when
`allowance(from, caller) < value` the call fails with
`InsufficientAllowance` and changes nothing (regardless of the balance);
when the allowance suffices but `balance_of from < value` the call fails
with `InsufficientBalance` and the allowance (indeed the whole state) is
untouched. -/
theorem transfer_from_check_order (s : Erc20) (caller from_ to_ : AccountId)
    (value : Balance) :
    (allowance s from_ caller < value →
      transfer_from s caller from_ to_ value =
        (Except.error Error.InsufficientAllowance, s, [])) ∧
    (value ≤ allowance s from_ caller → balance_of s from_ < value →
      transfer_from s caller from_ to_ value =
        (Except.error Error.InsufficientBalance, s, []) ∧
      allowance (transfer_from s caller from_ to_ value).2.1 from_ caller =
        allowance s from_ caller) := by
  have hal : allowance s from_ caller =
      (mapGet (from_, caller) s.allowances).getD 0 := rfl
  constructor
  · intro h
    exact transfer_from_of_allowance_lt s caller from_ to_ value (hal ▸ h)
  · intro h1 h2
    have ha : ¬ (mapGet (from_, caller) s.allowances).getD 0 < value := by
      rw [← hal]; exact Nat.not_lt.mpr h1
    have heq := transfer_from_of_balance_lt s caller from_ to_ value ha
      (balance_of_eq_impl s from_ ▸ h2)
    exact ⟨heq, by rw [heq]⟩

theorem transfer_from_check_order_witness :
    transfer_from (approve (new 1 100).1 1 2 20).2.1 2 1 3 30 =
      (Except.error Error.InsufficientAllowance,
       (approve (new 1 100).1 1 2 20).2.1, []) ∧
    transfer_from (approve (new 1 100).1 1 2 200).2.1 2 1 3 150 =
      (Except.error Error.InsufficientBalance,
       (approve (new 1 100).1 1 2 200).2.1, []) :=
  ⟨(transfer_from_check_order (approve (new 1 100).1 1 2 20).2.1 2 1 3 30).1
     (by decide),
   ((transfer_from_check_order (approve (new 1 100).1 1 2 200).2.1 2 1 3
       150).2 (by decide) (by decide)).1⟩

/-- C5.  After a successful `transfer_from` by spender `caller`,
`allowance(from, caller)` is its prior value minus exactly `value`
(the prior value being at least `value`); after a `transfer_from` that
returns either error, the allowance is unchanged. -/
theorem transfer_from_allowance_decrement (s : Erc20) (caller from_ to_ : AccountId)
    (value : Balance) :
    ((transfer_from s caller from_ to_ value).1 = Except.ok () →
      value ≤ allowance s from_ caller ∧
      allowance (transfer_from s caller from_ to_ value).2.1 from_ caller =
        allowance s from_ caller - value) ∧
    (∀ e : Error, (transfer_from s caller from_ to_ value).1 = Except.error e →
      allowance (transfer_from s caller from_ to_ value).2.1 from_ caller =
        allowance s from_ caller) := by
  have hal : allowance s from_ caller =
      (mapGet (from_, caller) s.allowances).getD 0 := rfl
  by_cases ha : (mapGet (from_, caller) s.allowances).getD 0 < value
  · rw [transfer_from_of_allowance_lt s caller from_ to_ value ha]
    exact ⟨by intro h; simp at h, by intro e h; rfl⟩
  · by_cases hb : balance_of_impl s from_ < value
    · rw [transfer_from_of_balance_lt s caller from_ to_ value ha hb]
      exact ⟨by intro h; simp at h, by intro e h; rfl⟩
    · rw [transfer_from_of_ok s caller from_ to_ value ha hb]
      refine ⟨fun h => ⟨by rw [hal]; exact Nat.not_lt.mp ha, ?_⟩,
        by intro e h; simp at h⟩
      show (mapGet (from_, caller) _).getD 0 = _
      rw [mapGet_mapInsert]
      simp [hal]

theorem transfer_from_allowance_decrement_witness :
    (50 ≤ allowance (approve (new 1 100).1 1 2 200).2.1 1 2 ∧
     allowance (transfer_from (approve (new 1 100).1 1 2 200).2.1 2 1 3 50).2.1
       1 2 = allowance (approve (new 1 100).1 1 2 200).2.1 1 2 - 50) ∧
    allowance (transfer_from (approve (new 1 100).1 1 2 20).2.1 2 1 3 30).2.1
      1 2 = allowance (approve (new 1 100).1 1 2 20).2.1 1 2 :=
  ⟨(transfer_from_allowance_decrement (approve (new 1 100).1 1 2 200).2.1
      2 1 3 50).1 (by decide),
   (transfer_from_allowance_decrement (approve (new 1 100).1 1 2 20).2.1
      2 1 3 30).2 Error.InsufficientAllowance (by decide)⟩

/-- A state whose destination account already holds the maximal `u128`
value, used to exercise the credit `to_balance + value` at the top of the
representable range. -/
def sOver : Erc20 :=
  { total_supply := 0
    balances := [(0, 1), (1, U128MOD - 1)]
    allowances := [] }

/-- C7, counterexample.  The credit is not checked or saturating: in a
state where `balance_of 1` is `2 ^ 128 - 1`, transferring one more unit to
account 1 is not rejected — it succeeds and the balance wraps to 0
(a plain unchecked `u128` addition at src/lib.rs line 103). -/
theorem credit_overflow_not_rejected :
    U128MOD ≤ balance_of sOver 1 + 1 ∧
    transfer_from_to sOver 0 1 1 =
      (Except.ok (),
       { total_supply := 0
         balances := [(0, 0), (1, 0)]
         allowances := [] },
       [Event.transfer (some 0) (some 1) 1]) := by
  constructor
  · decide
  · rfl

/-- C7, amended.  The credit `to_balance + value` is a plain wrapping
`u128` addition: on the success path the destination balance becomes
`(balance_of to + value) % 2 ^ 128`; whenever that sum is below `2 ^ 128`
(in particular in every state where conservation bounds it by
`total_supply`) the credit is the exact sum. -/
theorem credit_is_wrapping_add (s : Erc20) (from_ to_ : AccountId)
    (value : Balance) (h : ¬ balance_of s from_ < value) :
    (transfer_from_to s from_ to_ value).1 = Except.ok () ∧
    balance_of (transfer_from_to s from_ to_ value).2.1 to_ =
      (balance_of s to_ + value) % U128MOD ∧
    (balance_of s to_ + value < U128MOD →
      balance_of (transfer_from_to s from_ to_ value).2.1 to_ =
        balance_of s to_ + value) := by
  rw [balance_of_eq_impl] at h
  rw [transfer_from_to_of_ge s from_ to_ value h]
  refine ⟨rfl, ?_, ?_⟩
  · show (mapGet to_ _).getD 0 = _
    rw [mapGet_mapInsert]
    simp [balance_of, balance_of_impl]
  · intro hlt
    show (mapGet to_ _).getD 0 = _
    rw [mapGet_mapInsert]
    simp only [if_pos rfl, Option.getD_some]
    exact Nat.mod_eq_of_lt hlt

theorem credit_is_wrapping_add_witness :
    ¬ balance_of (new 1 100).1 1 < 10 ∧
    balance_of (transfer_from_to (new 1 100).1 1 2 10).2.1 2 =
      (balance_of (new 1 100).1 2 + 10) % U128MOD :=
  ⟨by decide, (credit_is_wrapping_add (new 1 100).1 1 2 10 (by decide)).2.1⟩

/-- Holds of an event list that contains no mint-style `Transfer` event,
i.e. no `Transfer` whose `from` field is `None`. -/
def mintFree (evs : List Event) : Prop :=
  ∀ t v, Event.transfer none t v ∉ evs

/-- C8.  `new initial_supply` sets `total_supply` to `initial_supply`,
credits the constructing caller with `initial_supply`, leaves every other
account at 0 and every allowance pair at 0, and emits exactly one
`Transfer` event with `from = None`; no other operation ever emits a
`Transfer` with `from = None`. -/
theorem new_postconditions (caller a o sp : AccountId) (initial_supply : Balance)
    (h : a ≠ caller) :
    (new caller initial_supply).1.total_supply = initial_supply ∧
    balance_of (new caller initial_supply).1 caller = initial_supply ∧
    balance_of (new caller initial_supply).1 a = 0 ∧
    allowance (new caller initial_supply).1 o sp = 0 ∧
    (new caller initial_supply).2 =
      [Event.transfer none (some caller) initial_supply] ∧
    (∀ s from_ to_ v, mintFree (transfer_from_to s from_ to_ v).2.2) ∧
    (∀ s c to_ v, mintFree (transfer s c to_ v).2.2) ∧
    (∀ s c from_ to_ v, mintFree (transfer_from s c from_ to_ v).2.2) ∧
    (∀ s c sp2 v, mintFree (approve s c sp2 v).2.2) := by
  have hmf : ∀ s from_ to_ v, mintFree (transfer_from_to s from_ to_ v).2.2 := by
    intro s from_ to_ v t x hx
    by_cases hb : balance_of_impl s from_ < v
    · rw [transfer_from_to_of_lt s from_ to_ v hb] at hx
      simp at hx
    · rw [transfer_from_to_of_ge s from_ to_ v hb] at hx
      simp at hx
  have hmf2 : ∀ s c from_ to_ v, mintFree (transfer_from s c from_ to_ v).2.2 := by
    intro s c from_ to_ v
    by_cases ha : (mapGet (from_, c) s.allowances).getD 0 < v
    · rw [transfer_from_of_allowance_lt s c from_ to_ v ha]
      intro t x hx; simp at hx
    · by_cases hb : balance_of_impl s from_ < v
      · rw [transfer_from_of_balance_lt s c from_ to_ v ha hb]
        intro t x hx; simp at hx
      · rw [transfer_from_of_ok s c from_ to_ v ha hb]
        intro t x hx; simp at hx
  refine ⟨rfl, ?_, ?_, rfl, rfl, hmf, fun s c to_ v => hmf s c to_ v, hmf2, ?_⟩
  · show (mapGet caller (mapInsert caller initial_supply [])).getD 0 = _
    rw [mapGet_mapInsert]
    simp
  · show (mapGet a (mapInsert caller initial_supply [])).getD 0 = _
    rw [mapGet_mapInsert]
    simp [h, mapGet]
  · intro s c sp2 v t x hx
    simp [approve] at hx

theorem new_postconditions_witness :
    (2 : AccountId) ≠ 1 ∧
    (new 1 100).1.total_supply = 100 ∧
    balance_of (new 1 100).1 2 = 0 :=
  ⟨by decide, (new_postconditions 1 2 3 4 100 (by decide)).1,
   (new_postconditions 1 2 3 4 100 (by decide)).2.2.1⟩

/-- C9.  Zero-value operations always succeed: `transfer(to, 0)` returns
`Ok` whatever the caller's balance, and `transfer_from(from, to, 0)`
returns `Ok` even with zero allowance and zero balance; both emit a
`Transfer` event with value 0, every balance keeps its prior value, and
`transfer_from` rewrites the `(from, caller)` allowance with an explicit
entry equal to its prior value.  (The hypothesis states that the
destination balance is a representable `u128` value, which is automatic
in the Rust code.) -/
theorem zero_value_operations_succeed (s : Erc20) (caller from_ to_ : AccountId)
    (hto : balance_of s to_ < U128MOD) :
    (transfer s caller to_ 0).1 = Except.ok () ∧
    (∀ a, balance_of (transfer s caller to_ 0).2.1 a = balance_of s a) ∧
    (transfer s caller to_ 0).2.2 = [Event.transfer (some caller) (some to_) 0] ∧
    (transfer_from s caller from_ to_ 0).1 = Except.ok () ∧
    (∀ a, balance_of (transfer_from s caller from_ to_ 0).2.1 a = balance_of s a) ∧
    allowance (transfer_from s caller from_ to_ 0).2.1 from_ caller =
      allowance s from_ caller ∧
    mapGet (from_, caller) (transfer_from s caller from_ to_ 0).2.1.allowances =
      some (allowance s from_ caller) ∧
    (transfer_from s caller from_ to_ 0).2.2 =
      [Event.transfer (some from_) (some to_) 0] := by
  have hto2 : (mapGet to_ s.balances).getD 0 < U128MOD := hto
  have hbal : ∀ f a, (mapGet a
      (mapInsert to_ ((balance_of_impl s to_ + 0) % U128MOD)
        (mapInsert f (balance_of_impl s f - 0) s.balances))).getD 0 =
      balance_of s a := by
    intro f a
    rw [mapGet_mapInsert, mapGet_mapInsert]
    by_cases h1 : a = to_
    · subst h1
      simp [Nat.mod_eq_of_lt hto2, balance_of, balance_of_impl]
    · by_cases h2 : a = f
      · subst h2
        simp [h1, balance_of, balance_of_impl]
      · simp [h1, h2, balance_of]
  have hz1 : ¬ balance_of_impl s caller < 0 := Nat.not_lt.mpr (Nat.zero_le _)
  have hz2 : ¬ balance_of_impl s from_ < 0 := Nat.not_lt.mpr (Nat.zero_le _)
  have hz3 : ¬ (mapGet (from_, caller) s.allowances).getD 0 < 0 :=
    Nat.not_lt.mpr (Nat.zero_le _)
  have ht := transfer_from_to_of_ge s caller to_ 0 hz1
  have htf := transfer_from_of_ok s caller from_ to_ 0 hz3 hz2
  refine ⟨?_, ?_, ?_, ?_, ?_, ?_, ?_, ?_⟩
  · rw [transfer, ht]
  · intro a
    rw [transfer, ht]
    exact hbal caller a
  · rw [transfer, ht]
  · rw [htf]
  · intro a
    rw [htf]
    exact hbal from_ a
  · rw [htf]
    show (mapGet (from_, caller) _).getD 0 = _
    rw [mapGet_mapInsert]
    simp [allowance, allowance_impl]
  · rw [htf]
    show mapGet (from_, caller) (mapInsert (from_, caller) _ s.allowances) = _
    rw [mapGet_mapInsert]
    simp [allowance, allowance_impl]
  · rw [htf]

theorem zero_value_operations_succeed_witness :
    balance_of (new 1 100).1 3 < U128MOD ∧
    (transfer_from (new 1 100).1 2 1 3 0).1 = Except.ok () ∧
    balance_of (transfer_from (new 1 100).1 2 1 3 0).2.1 1 =
      balance_of (new 1 100).1 1 ∧
    mapGet (1, 2) (transfer_from (new 1 100).1 2 1 3 0).2.1.allowances =
      some (allowance (new 1 100).1 1 2) :=
  ⟨by decide,
   (zero_value_operations_succeed (new 1 100).1 2 1 3 (by decide)).2.2.2.1,
   (zero_value_operations_succeed (new 1 100).1 2 1 3 (by decide)).2.2.2.2.1 1,
   (zero_value_operations_succeed (new 1 100).1 2 1 3 (by decide)).2.2.2.2.2.2.1⟩

/-- C10.  `transfer_from` has no special case for the owner as caller:
with `caller = from`, a call is still gated on the self-allowance
`allowance(from, from)` — it fails with `InsufficientAllowance` whenever
that self-allowance is below `value`, even when the owner's balance covers
`value` — and on success it decrements `allowance(from, from)` by `value`. -/
theorem transfer_from_no_owner_exception (s : Erc20) (from_ to_ : AccountId)
    (value : Balance) :
    (value ≤ balance_of s from_ → allowance s from_ from_ < value →
      transfer_from s from_ from_ to_ value =
        (Except.error Error.InsufficientAllowance, s, [])) ∧
    ((transfer_from s from_ from_ to_ value).1 = Except.ok () →
      value ≤ allowance s from_ from_ ∧
      allowance (transfer_from s from_ from_ to_ value).2.1 from_ from_ =
        allowance s from_ from_ - value) := by
  have hal : allowance s from_ from_ =
      (mapGet (from_, from_) s.allowances).getD 0 := rfl
  constructor
  · intro _ h
    exact transfer_from_of_allowance_lt s from_ from_ to_ value (hal ▸ h)
  · by_cases ha : (mapGet (from_, from_) s.allowances).getD 0 < value
    · rw [transfer_from_of_allowance_lt s from_ from_ to_ value ha]
      intro h; simp at h
    · by_cases hb : balance_of_impl s from_ < value
      · rw [transfer_from_of_balance_lt s from_ from_ to_ value ha hb]
        intro h; simp at h
      · rw [transfer_from_of_ok s from_ from_ to_ value ha hb]
        intro _
        refine ⟨by rw [hal]; exact Nat.not_lt.mp ha, ?_⟩
        show (mapGet (from_, from_) _).getD 0 = _
        rw [mapGet_mapInsert]
        simp [hal]

theorem transfer_from_no_owner_exception_witness :
    (10 ≤ balance_of (new 1 100).1 1 ∧
     allowance (new 1 100).1 1 1 < 10 ∧
     transfer_from (new 1 100).1 1 1 2 10 =
       (Except.error Error.InsufficientAllowance, (new 1 100).1, [])) ∧
    allowance (transfer_from (approve (new 1 100).1 1 1 300).2.1 1 1 2 40).2.1
      1 1 = allowance (approve (new 1 100).1 1 1 300).2.1 1 1 - 40 :=
  ⟨⟨by decide, by decide,
    (transfer_from_no_owner_exception (new 1 100).1 1 2 10).1 (by decide)
      (by decide)⟩,
   ((transfer_from_no_owner_exception (approve (new 1 100).1 1 1 300).2.1
       1 2 40).2 (by decide)).2⟩

end Erc20Spec
